import Mathlib

/-
Verification development for the retrieval orchestration layer:
a shallow embedding of the task dispatcher (`models.py`), the multi-query
vector search and merge (`vector_search.py`), the refinement state machine
(`retrieval_orchestrator.py`), the query-expansion parser
(`query_processing.py`) and the answer synthesizer (`answer_generation.py`),
together with proofs of the spec-level properties.

Remote calls (completion, embedding, nearest-neighbour search) are modelled
as oracle parameters: each embedded function takes the responses those calls
would return as explicit arguments.  Exceptions thrown by remote executors
are modelled with `Except`; `None`-able values with `Option`.  Similarity
scores (floats in the source, used only through ordered comparison and
equality) are modelled as rationals.
-/

namespace Spec2Proof

/-! ## Task dispatcher (`models.py`, `process_batch_parallel_with_retry`) -/

/-- Behaviour of one submitted task's remote executors: `primary n` is what the
primary model call returns on the `n`-th attempt (an exception message or a
response string), `fallback` is what the one fallback call would return. -/
structure TaskSpec where
  primary : Nat → Except String String
  fallback : Except String String

/-- The tuple produced by `process_single_with_retry`:
`(idx, result, error, model)`. -/
structure ResultTuple where
  idx : Nat
  result : Option String
  error : Option String
  model : Option String
deriving DecidableEq, Repr

/-- Python's `str.strip()`: drop leading and trailing whitespace.  Implemented
structurally over the character list so that terms reduce in the kernel. -/
def pyStrip (s : String) : String :=
  String.mk (((s.data.dropWhile Char.isWhitespace).reverse.dropWhile
    Char.isWhitespace).reverse)

/-- `result and len(result.strip()) > 0` for a string `result`. -/
def nonEmptyResponse (r : String) : Bool := !(pyStrip r).data.isEmpty

instance : DecidableEq (Except String (List (Option String))) := fun a b =>
  match a, b with
  | .ok x, .ok y => if h : x = y then .isTrue (by rw [h]) else .isFalse (by simp [h])
  | .error x, .error y => if h : x = y then .isTrue (by rw [h]) else .isFalse (by simp [h])
  | .ok _, .error _ => .isFalse (by simp)
  | .error _, .ok _ => .isFalse (by simp)

/-- The `for attempt in range(max_retries)` loop over the primary executor:
returns the first non-empty successful response (if any) together with the
number of primary calls performed.  `attempt` is the current loop index,
`fuel` the number of loop iterations left. -/
def primaryLoop (prim : Nat → Except String String) : Nat → Nat → Option String × Nat
  | _, 0 => (none, 0)
  | attempt, fuel + 1 =>
    match prim attempt with
    | .ok r =>
      if nonEmptyResponse r then (some r, 1)
      else
        let rest := primaryLoop prim (attempt + 1) fuel
        (rest.1, rest.2 + 1)
    | .error _ =>
      let rest := primaryLoop prim (attempt + 1) fuel
      (rest.1, rest.2 + 1)

/-- `process_single_with_retry(idx, messages)`: try the primary model up to
`max_retries` times, then the fallback once. -/
def process_single_with_retry (modelFunc fallbackModel : String) (maxRetries : Nat)
    (idx : Nat) (spec : TaskSpec) : ResultTuple :=
  match (primaryLoop spec.primary 0 maxRetries).1 with
  | some r => ⟨idx, some r, none, some modelFunc⟩
  | none =>
    match spec.fallback with
    | .ok r =>
      if nonEmptyResponse r then ⟨idx, some r, none, some fallbackModel⟩
      else ⟨idx, none, some "Fallback also returned empty", none⟩
    | .error e => ⟨idx, none, some ("Fallback failed: " ++ e), none⟩

/-- Number of primary-executor calls performed for one task. -/
def primaryCalls (spec : TaskSpec) (maxRetries : Nat) : Nat :=
  (primaryLoop spec.primary 0 maxRetries).2

/-- Number of fallback-executor calls performed for one task (the fallback is
invoked exactly when no primary attempt returned a non-empty response). -/
def fallbackCalls (spec : TaskSpec) (maxRetries : Nat) : Nat :=
  if (primaryLoop spec.primary 0 maxRetries).1.isSome then 0 else 1

/-- Total remote-call attempts performed for one task. -/
def totalCalls (spec : TaskSpec) (maxRetries : Nat) : Nat :=
  primaryCalls spec maxRetries + fallbackCalls spec maxRetries

/-- The keys of the `model_map` dictionary. -/
def modelMapNames : List String :=
  ["gpt5", "gpt51", "gpt5_mini", "claude_opus", "claude_sonnet", "claude_haiku"]

/-- Key relation of `results.sort(key=lambda x: x[0])`. -/
def idxLe (a b : ResultTuple) : Prop := a.idx ≤ b.idx

instance : DecidableRel idxLe := fun a b => Nat.decLe a.idx b.idx

instance : IsTotal ResultTuple idxLe := ⟨fun a b => Nat.le_total a.idx b.idx⟩

instance : IsTrans ResultTuple idxLe := ⟨fun _ _ _ h h' => Nat.le_trans h h'⟩

/-- `results.sort(key=lambda x: x[0])` — a stable sort on the index field. -/
def sortByIdx (l : List ResultTuple) : List ResultTuple := List.insertionSort idxLe l

/-- The per-task tuples as `asyncio.gather` produces them (tasks are created by
`enumerate(messages_list)`), before the sort by index. -/
def dispatchTuples (modelFunc fallbackModel : String) (maxRetries : Nat)
    (specs : List TaskSpec) : List ResultTuple :=
  specs.enum.map fun p =>
    process_single_with_retry modelFunc fallbackModel maxRetries p.1 p.2

/-- `process_batch_parallel_with_retry`: validate model names, run every task,
sort the gathered tuples by index, and return the per-task response values.
`.error` is the `ValueError` raised for an unknown model name. -/
def process_batch_parallel_with_retry (modelFunc fallbackModel : String)
    (maxRetries : Nat) (specs : List TaskSpec) : Except String (List (Option String)) :=
  if modelFunc ∉ modelMapNames then .error ("Unknown model: " ++ modelFunc)
  else if fallbackModel ∉ modelMapNames then .error ("Unknown fallback model: " ++ fallbackModel)
  else
    .ok ((sortByIdx (dispatchTuples modelFunc fallbackModel maxRetries specs)).map (·.result))

/-- Strict version of the sort key, used to show sorted outputs are unique. -/
def idxLt (a b : ResultTuple) : Prop := a.idx < b.idx

instance : IsAntisymm ResultTuple idxLt :=
  ⟨fun _ _ h h' => absurd (Nat.lt_trans h h') (Nat.lt_irrefl _)⟩

/-- One remote call outcome counts as a failure for the retry loop: a thrown
exception, or a blank/whitespace-only response. -/
def failsOrEmpty : Except String String → Bool
  | .ok r => !(nonEmptyResponse r)
  | .error _ => true

/-- Example task: primary succeeds immediately. -/
def exSpecOk : TaskSpec := ⟨fun _ => .ok "hello", .ok "fb"⟩

/-- Example task: every primary attempt throws; the fallback succeeds. -/
def alwaysFailSpec : TaskSpec := ⟨fun _ => .error "boom", .ok "fb"⟩

/-- Example task: every primary attempt returns an empty response. -/
def alwaysEmptySpec : TaskSpec := ⟨fun _ => .ok "", .ok "fb"⟩

/-- Example task: primary exhausts and the fallback returns empty. -/
def bothFailEmptySpec : TaskSpec := ⟨fun _ => .error "boom", .ok " "⟩

/-- Example task: primary exhausts and the fallback throws. -/
def bothFailExnSpec : TaskSpec := ⟨fun _ => .error "boom", .error "crash"⟩

/-! ## Retriever configuration (`subproject_database_retriever/config.py`) -/

/-- Number of chunks to retrieve per query. -/
def DEFAULT_TOP_K : Nat := 10

/-- Maximum agentic refinement iterations. -/
def MAX_ITERATIONS : Nat := 3

/-- Minimum similarity score to consider (0.45 in the source; scores are
modelled as rationals, and the value is given in lowest terms 9/20 so that
kernel reduction works; `SIMILARITY_THRESHOLD_eq` checks it equals 0.45). -/
def SIMILARITY_THRESHOLD : ℚ := ⟨9, 20, by decide, by decide⟩

/-- Limit on chunks used for answer generation. -/
def MAX_CHUNKS_FOR_ANSWER : Nat := 15

/-! ## Data model (`states.py` and the chunk dictionaries) -/

/-- One causal relation from a chunk's `extracted_data.logic_chains`; absent
dictionary keys are modelled as the `""` defaults `rel.get(...)` produces. -/
structure LogicChain where
  cause : String
  effect : String
  mechanism : String
  direction : String
deriving DecidableEq, Repr

/-- The parsed `extracted_data` JSON payload of a chunk's metadata; a missing
`source` key is `none`, other missing keys are their `get` defaults. -/
structure ExtractedData where
  source : Option String
  what_happened : String
  interpretation : String
  used_data : String
  logic_chains : List LogicChain
deriving DecidableEq, Repr

/-- A chunk's metadata bag.  `extracted_data = none` models a missing or
unparseable JSON string, which the source turns into the empty dict `{}`. -/
structure ChunkMetadata where
  extracted_data : Option ExtractedData
  tg_channel : Option String
deriving DecidableEq, Repr

/-- The `{}` fallback for missing/unparseable `extracted_data`. -/
def defaultExtractedData : ExtractedData := ⟨none, "", "", "", []⟩

/-- One match returned by `index.query`: id, similarity score, metadata. -/
structure SearchMatch where
  id : String
  score : ℚ
  metadata : ChunkMetadata
deriving DecidableEq, Repr

/-- One entry of the `all_matches` dict / `retrieved_chunks` list. -/
structure RetrievedChunk where
  id : String
  score : ℚ
  metadata : ChunkMetadata
  matched_query_idx : Nat
deriving DecidableEq, Repr

/-- One item of `layered_results` in `expand_query`: dimension and reasoning
are `None` unless their lines were seen before the QUERY line. -/
structure LayeredItem where
  dimension : Option String
  reasoning : Option String
  query : String
deriving DecidableEq, Repr

/-- `RetrieverState` (a `total=False` TypedDict: every key may be absent,
modelled with `Option`; reads use `state.get(key, default)`). -/
structure RetrieverState where
  query : String
  processed_query : Option String
  query_variations : Option (List String)
  query_dimensions : Option (List LayeredItem)
  query_type : Option String
  retrieved_chunks : Option (List RetrievedChunk)
  retrieval_scores : Option (List ℚ)
  synthesized_context : Option String
  answer : Option String
  iteration_count : Option Nat
  needs_refinement : Option Bool
deriving Repr

/-! ## Python string primitives, implemented structurally so the kernel can
evaluate them -/

/-- The backquote character, `chr(96)`. -/
def backquote : Char := Char.ofNat 96

/-- Python `str.upper()` (ASCII). -/
def pyUpper (s : String) : String := String.mk (s.data.map Char.toUpper)

/-- Python `str.lower()` (ASCII). -/
def pyLower (s : String) : String := String.mk (s.data.map Char.toLower)

/-- Python `str.strip(ch)`: drop leading and trailing copies of `ch`. -/
def pyStripChar (ch : Char) (s : String) : String :=
  String.mk (((s.data.dropWhile (· == ch)).reverse.dropWhile (· == ch)).reverse)

/-- Characters after the first `':'`, if any. -/
def afterColonAux : List Char → Option (List Char)
  | [] => none
  | c :: cs => if c = ':' then some cs else afterColonAux cs

/-- Python `line.split(":", 1)[-1]`: the part after the first colon, or the
whole line when it has no colon. -/
def afterFirstColon (s : String) : String :=
  match afterColonAux s.data with
  | some cs => String.mk cs
  | none => s

/-- Whether `pre` is a prefix of `l`. -/
def listPrefixOf : List Char → List Char → Bool
  | [], _ => true
  | _ :: _, [] => false
  | a :: as, b :: bs => a == b && listPrefixOf as bs

/-- Whether `sub` occurs as a contiguous sublist of `l`. -/
def listContainsSub (sub : List Char) : List Char → Bool
  | [] => listPrefixOf sub []
  | c :: cs => listPrefixOf sub (c :: cs) || listContainsSub sub cs

/-- Python `sub in s` (substring containment). -/
def containsSub (sub s : String) : Bool := listContainsSub sub.data s.data

/-- Splitting on `'\n'`, Python `str.split("\n")` semantics. -/
def splitNewlineAux : List Char → List Char → List String
  | [], cur => [String.mk cur.reverse]
  | c :: cs, cur =>
    if c = '\n' then String.mk cur.reverse :: splitNewlineAux cs []
    else splitNewlineAux cs (c :: cur)

/-! ## Query processing (`query_processing.py`) -/

/-- `classify_query`, applied to the classification model's response. -/
def classify_query (response : String) : String :=
  if containsSub "data_lookup" (pyLower response) then "data_lookup"
  else "research_question"

/-- `"DIMENSION:" in line.upper()`. -/
def isDimensionLine (line : String) : Bool := containsSub "DIMENSION:" (pyUpper line)

/-- `line.upper().startswith("REASONING:") or "REASONING:" in line`. -/
def isReasoningLine (line : String) : Bool :=
  listPrefixOf "REASONING:".data (pyUpper line).data || containsSub "REASONING:" line

/-- `line.upper().startswith("QUERY:") or "QUERY:" in line`. -/
def isQueryLine (line : String) : Bool :=
  listPrefixOf "QUERY:".data (pyUpper line).data || containsSub "QUERY:" line

/-- `line.split(":", 1)[-1].strip().strip("*").strip()` (dimension and
reasoning values). -/
def stripMarkedValue (line : String) : String :=
  pyStrip (pyStripChar '*' (pyStrip (afterFirstColon line)))

/-- `line.split(":", 1)[-1].strip().strip(backquote).strip("*").strip()`
(query text). -/
def stripQueryValue (line : String) : String :=
  pyStrip (pyStripChar '*' (pyStripChar backquote (pyStrip (afterFirstColon line))))

/-- Parser state of `expand_query`'s line loop. -/
structure ParseAcc where
  current_layer : Option String
  current_reasoning : Option String
  queries : List String
  layered_results : List LayeredItem
deriving DecidableEq, Repr

/-- The body of `expand_query`'s `for line in response.strip().split("\n")`. -/
def parseLine (acc : ParseAcc) (rawLine : String) : ParseAcc :=
  let line := pyStrip rawLine
  if line.data.isEmpty then acc
  else if isDimensionLine line then
    { acc with current_layer := some (stripMarkedValue line) }
  else if isReasoningLine line then
    { acc with current_reasoning := some (stripMarkedValue line) }
  else if isQueryLine line then
    let query_text := stripQueryValue line
    if query_text.data.isEmpty then acc
    else
      { current_layer := none, current_reasoning := none,
        queries := acc.queries ++ [query_text],
        layered_results := acc.layered_results ++
          [⟨acc.current_layer, acc.current_reasoning, query_text⟩] }
  else acc

/-- `expand_query`, applied to the expansion model's raw `response`; returns
`(query, queries, layered_results)`. -/
def expand_query (response query : String) : String × List String × List LayeredItem :=
  let acc := (splitNewlineAux (pyStrip response).data []).foldl parseLine ⟨none, none, [], []⟩
  (query, acc.queries, acc.layered_results)

/-- `refine_query`: a literal pass-through in the source. -/
def refine_query (original_query : String) (previous_chunks : List RetrievedChunk) : String :=
  original_query

/-- Responses of the two generation calls `process_query` makes on
iteration 0. -/
structure QueryEnv where
  classifyResponse : String
  expandResponse : String

/-- `process_query`: classify and expand on iteration 0, refine afterwards. -/
def process_query (env : QueryEnv) (state : RetrieverState) : RetrieverState :=
  let iteration := state.iteration_count.getD 0
  if iteration = 0 then
    let query_type := classify_query env.classifyResponse
    let pql := expand_query env.expandResponse state.query
    { state with
      processed_query := some pql.1
      query_type := some query_type
      query_variations := some pql.2.1
      query_dimensions := some pql.2.2 }
  else
    { state with
      processed_query := some (refine_query state.query (state.retrieved_chunks.getD [])) }

/-! ## Vector search (`vector_search.py`) -/

/-- The chunk dict built from a match: `{"id": ..., "score": ...,
"metadata": ..., "matched_query_idx": i}`. -/
def mkChunk (qIdx : Nat) (m : SearchMatch) : RetrievedChunk :=
  ⟨m.id, m.score, m.metadata, qIdx⟩

/-- One `all_matches[chunk_id] = {...}` dict update: replace in place when the
key exists and the new score is strictly higher, append otherwise.  Python
dicts preserve insertion order, which a key-unique list models exactly. -/
def insertMatch (qIdx : Nat) (m : SearchMatch) : List RetrievedChunk → List RetrievedChunk
  | [] => [mkChunk qIdx m]
  | c :: cs =>
    if c.id = m.id then (if c.score < m.score then mkChunk qIdx m else c) :: cs
    else c :: insertMatch qIdx m cs

/-- The body of the match loop: threshold filter then dict update. -/
def applyMatch (acc : List RetrievedChunk) (p : Nat × SearchMatch) : List RetrievedChunk :=
  if SIMILARITY_THRESHOLD ≤ p.2.score then insertMatch p.1 p.2 acc else acc

/-- The full merge of all `(query index, match)` pairs into `all_matches`. -/
def mergeMatches (pairs : List (Nat × SearchMatch)) : List RetrievedChunk :=
  pairs.foldl applyMatch []

/-- All matches produced by the per-query search loop, tagged with the index
of the query that found them, in loop order. -/
def gatherMatches (env : Nat → List SearchMatch) (numQueries : Nat) :
    List (Nat × SearchMatch) :=
  ((List.range numQueries).map fun i => (env i).map fun m => (i, m)).join

/-- Sort key of `sorted(all_matches.values(), key=..., reverse=True)`. -/
def scoreGe (a b : RetrievedChunk) : Prop := b.score ≤ a.score

instance : DecidableRel scoreGe := fun a b => inferInstanceAs (Decidable (b.score ≤ a.score))

instance : IsTotal RetrievedChunk scoreGe := ⟨fun a b => le_total b.score a.score⟩

instance : IsTrans RetrievedChunk scoreGe := ⟨fun _ _ _ h h' => le_trans h' h⟩

/-- `sorted(..., key=lambda x: x["score"], reverse=True)` — stable. -/
def sortByScoreDesc (l : List RetrievedChunk) : List RetrievedChunk :=
  List.insertionSort scoreGe l

/-- `[original_query] + query_variations` where the original query is
`state.get("processed_query") or state.get("query", "")` (Python `or`:
an absent or empty processed query falls back to the raw query). -/
def allQueries (state : RetrieverState) : List String :=
  (if (state.processed_query.getD "").data.isEmpty then state.query
   else state.processed_query.getD "") :: state.query_variations.getD []

/-- `search_vectors`: one nearest-neighbour call per query (the
`env` oracle gives each call's matches), threshold filter, max-score-wins
merge keyed by chunk id, score-descending sort, sufficiency flag, and
iteration increment. -/
def search_vectors (env : Nat → List SearchMatch) (state : RetrieverState) :
    RetrieverState :=
  let pairs := gatherMatches env (allQueries state).length
  let retrieved_chunks := sortByScoreDesc (mergeMatches pairs)
  let retrieval_scores := retrieved_chunks.map (·.score)
  let needs_refinement := decide (retrieved_chunks.length < 3)
  { state with
    retrieved_chunks := some retrieved_chunks
    retrieval_scores := some retrieval_scores
    needs_refinement := some needs_refinement
    iteration_count := some (state.iteration_count.getD 0 + 1) }

/-! ## Answer generation (`answer_generation.py`) -/

/-- `f"{score:.2f}"`, two-decimal rendering of a rational score. -/
def formatScore2 (q : ℚ) : String :=
  let cents : Int := round (q * 100)
  let sign := if cents < 0 then "-" else ""
  let a := cents.natAbs
  sign ++ toString (a / 100) ++ "." ++ (if a % 100 < 10 then "0" else "") ++ toString (a % 100)

/-- One `  - cause → effect (direction): mechanism` line. -/
def formatLogicChainLine (rel : LogicChain) : String :=
  "  - " ++ rel.cause ++ " → " ++ rel.effect ++ " (" ++ rel.direction ++ "): " ++
    rel.mechanism ++ "\n"

/-- One chunk's formatted context block (`i` counts from 1). -/
def formatChunkPart (i : Nat) (chunk : RetrievedChunk) : String :=
  let metadata := chunk.metadata
  let ed := metadata.extracted_data.getD defaultExtractedData
  let source := ed.source.getD (metadata.tg_channel.getD "unknown")
  let part := "[Source " ++ toString i ++ ": " ++ source ++ "] (score: " ++
    formatScore2 chunk.score ++ ")\n"
  let part := if ed.what_happened.data.isEmpty then part
    else part ++ "What happened: " ++ ed.what_happened ++ "\n"
  let part := if ed.interpretation.data.isEmpty then part
    else part ++ "Interpretation: " ++ ed.interpretation ++ "\n"
  let part := if ed.used_data.data.isEmpty then part
    else part ++ "Data: " ++ ed.used_data ++ "\n"
  if ed.logic_chains.isEmpty then part
  else part ++ "Logic chains:\n" ++ String.join (ed.logic_chains.map formatLogicChainLine)

/-- `"\n---\n".join(context_parts)`. -/
def joinParts : List String → String
  | [] => ""
  | [p] => p
  | p :: ps => p ++ "\n---\n" ++ joinParts ps

/-- `synthesize_context`. -/
def synthesize_context (chunks : List RetrievedChunk) : String :=
  if chunks.isEmpty then "No relevant context found."
  else joinParts (chunks.enum.map fun p => formatChunkPart (p.1 + 1) p.2)

/-- `generate_logic_chains` with the generation call as an oracle taking the
query and the context (the prompt template is an opaque string producer);
also counts how many generation calls were made. -/
def generate_logic_chains (llm : String → String → String) (query context : String) :
    String × Nat :=
  if context = "No relevant context found." then
    ("I couldn't find relevant logic chains to answer this question.", 0)
  else (llm query context, 1)

/-- `generate_answer`: cap the chunks, synthesize context, generate.  The
second component counts generation calls. -/
def generate_answer (llm : String → String → String) (state : RetrieverState) :
    RetrieverState × Nat :=
  let chunks := (state.retrieved_chunks.getD []).take MAX_CHUNKS_FOR_ANSWER
  let context := synthesize_context chunks
  let ac := generate_logic_chains llm state.query context
  ({ state with synthesized_context := some context, answer := some ac.1 }, ac.2)

/-! ## Refinement controller (`retrieval_orchestrator.py`) -/

/-- `route_after_retrieval`. -/
def route_after_retrieval (state : RetrieverState) : String :=
  if state.needs_refinement.getD false = true ∧
      state.iteration_count.getD 0 < MAX_ITERATIONS then "refine"
  else "generate"

/-- Oracles for a whole workflow run: the two query-processing responses and
the per-query search results for each iteration, and the answer generator. -/
structure WorkflowEnv where
  queryEnv : Nat → QueryEnv
  searchEnv : Nat → Nat → List SearchMatch
  llm : String → String → String

/-- The compiled LangGraph loop:
`process_query → search → (refine: loop | generate: finish)`. -/
def runLoop (env : WorkflowEnv) (state : RetrieverState) : RetrieverState :=
  let it := state.iteration_count.getD 0
  let s1 := search_vectors (env.searchEnv it) (process_query (env.queryEnv it) state)
  if h : route_after_retrieval s1 = "refine" then runLoop env s1
  else (generate_answer env.llm s1).1
termination_by MAX_ITERATIONS - state.iteration_count.getD 0
decreasing_by
  simp only [route_after_retrieval] at h
  split at h
  · rename_i hcond
    have hit : (search_vectors (env.searchEnv (state.iteration_count.getD 0))
        (process_query (env.queryEnv (state.iteration_count.getD 0)) state)).iteration_count =
        some ((process_query (env.queryEnv (state.iteration_count.getD 0))
          state).iteration_count.getD 0 + 1) := rfl
    have hpq : (process_query (env.queryEnv (state.iteration_count.getD 0))
        state).iteration_count = state.iteration_count := by
      unfold process_query
      dsimp only
      split <;> rfl
    rw [hit, hpq] at hcond ⊢
    simp only [Option.getD_some] at hcond ⊢
    omega
  · exact absurd h (by decide)

/-- `run_retrieval`: build the initial state and invoke the graph. -/
def run_retrieval (env : WorkflowEnv) (query : String) : RetrieverState :=
  runLoop env ⟨query, none, none, none, none, none, none, none, none, some 0, some false⟩

/-- A workflow environment whose searches find nothing and whose model calls
return fixed strings. -/
def emptyWorkflowEnv : WorkflowEnv :=
  ⟨fun _ => ⟨"research_question", ""⟩, fun _ _ => [], fun _ _ => "answer"⟩

/-- A state at the start of a refinement decision: refinement requested,
first iteration completed. -/
def exRefineState : RetrieverState :=
  ⟨"q", none, none, none, none, some [], some [], none, none, some 1, some true⟩

/-- Invariant of the `all_matches` dict while folding the match pairs: keys
are unique, every stored chunk passed the threshold, came verbatim from one
of the processed pairs, and dominates (by score) every processed surviving
pair with its id; conversely every processed surviving pair has an entry
under its id. -/
def MergeInvariant (done : List (Nat × SearchMatch)) (acc : List RetrievedChunk) : Prop :=
  (acc.map (·.id)).Nodup ∧
  (∀ c ∈ acc,
    SIMILARITY_THRESHOLD ≤ c.score ∧
    (∃ p ∈ done, SIMILARITY_THRESHOLD ≤ p.2.score ∧ c = mkChunk p.1 p.2) ∧
    ∀ p ∈ done, p.2.id = c.id → SIMILARITY_THRESHOLD ≤ p.2.score →
      p.2.score ≤ c.score) ∧
  ∀ p ∈ done, SIMILARITY_THRESHOLD ≤ p.2.score → ∃ c ∈ acc, c.id = p.2.id

/-- A match with id `"x"` and score 0.6 (= 3/5). -/
def exMatchA : SearchMatch := ⟨"x", ⟨3, 5, by decide, by decide⟩, ⟨none, none⟩⟩

/-- A match with id `"x"` and score 0.8 (= 4/5). -/
def exMatchB : SearchMatch := ⟨"x", ⟨4, 5, by decide, by decide⟩, ⟨none, none⟩⟩

/-- A two-query search where both variants return chunk `"x"`, with scores
0.6 and 0.8. -/
def exSearchEnv : Nat → List SearchMatch := fun i => if i = 0 then [exMatchA] else [exMatchB]

/-- A state about to run its first search with one query variation. -/
def exSearchState : RetrieverState :=
  ⟨"q", some "q", some ["v1"], none, none, none, none, none, none, some 0, some false⟩

/-- Strict version of the descending sort key, used to show that sorted
outputs with pairwise-distinct scores are unique. -/
def scoreGt (a b : RetrievedChunk) : Prop := b.score < a.score

instance : IsAntisymm RetrievedChunk scoreGt :=
  ⟨fun _ _ h h' => absurd (lt_trans h h') (lt_irrefl _)⟩

/-- Whether one response line makes `expand_query`'s parser emit a variant:
it reaches the QUERY branch (after the DIMENSION and REASONING branches
decline) with non-empty extracted query text. -/
def emitsVariantLine (rawLine : String) : Bool :=
  let line := pyStrip rawLine
  !line.data.isEmpty && !isDimensionLine line && !isReasoningLine line &&
    isQueryLine line && !(stripQueryValue line).data.isEmpty

/-- Scenario C: an expansion response with two well-formed triples and one
truncated triple missing its QUERY line. -/
def scenarioCResponse : String :=
  "DIMENSION: temporal\nREASONING: r1\nQUERY: q1\n" ++
  "DIMENSION: causal\nREASONING: r2\nQUERY: q2\n" ++
  "DIMENSION: metric\nREASONING: r3"

/-- A state whose retrieval produced no chunks. -/
def emptyChunksState : RetrieverState :=
  ⟨"q", some "q", some [], none, none, some [], some [], none, none, some 3, some true⟩

/-- A state whose retrieval produced one chunk. -/
def oneChunkState : RetrieverState :=
  ⟨"q", some "q", some [], none, none, some [mkChunk 0 exMatchA],
    some [(mkChunk 0 exMatchA).score], none, none, some 1, some false⟩

/-! ## Concurrency model of the dispatcher's semaphore (`asyncio.Semaphore` +
`async with semaphore:` around the whole body of `process_single_with_retry`) -/

/-- One suspension-point action inside a task's semaphore-guarded body: a
remote executor call, or an exponential-backoff sleep between attempts. -/
inductive TaskAction where
  | remoteCall : TaskAction
  | backoffSleep : TaskAction
deriving DecidableEq, Repr

/-- A task's lifecycle: waiting to acquire the semaphore (with its body still
ahead of it), running with the remaining body (holding a slot — including
while sleeping in backoff), or finished (slot released). -/
inductive TaskPhase where
  | waiting : List TaskAction → TaskPhase
  | running : List TaskAction → TaskPhase
  | finished : TaskPhase
deriving DecidableEq, Repr

/-- Whether a task currently holds a semaphore slot. -/
def isRunningPhase : TaskPhase → Bool
  | .running _ => true
  | _ => false

/-- Number of tasks simultaneously holding a slot. -/
def runningCount (ps : List TaskPhase) : Nat := ps.countP isRunningPhase

/-- The action trace of the primary retry loop: one remote call per attempt,
with a backoff sleep after each failed attempt except the last
(`if attempt < max_retries - 1: await asyncio.sleep(...)`). -/
def primaryBody (prim : Nat → Except String String) (maxRetries : Nat) :
    Nat → Nat → List TaskAction
  | _, 0 => []
  | attempt, fuel + 1 =>
    match prim attempt with
    | .ok r =>
      if nonEmptyResponse r then [.remoteCall]
      else .remoteCall :: ((if attempt < maxRetries - 1 then [.backoffSleep] else []) ++
        primaryBody prim maxRetries (attempt + 1) fuel)
    | .error _ =>
      .remoteCall :: ((if attempt < maxRetries - 1 then [.backoffSleep] else []) ++
        primaryBody prim maxRetries (attempt + 1) fuel)

/-- The whole semaphore-guarded body of one task: the primary attempts and,
when they all fail, the single fallback call. -/
def taskBody (spec : TaskSpec) (maxRetries : Nat) : List TaskAction :=
  primaryBody spec.primary maxRetries 0 maxRetries ++
    (if (primaryLoop spec.primary 0 maxRetries).1.isSome then [] else [.remoteCall])

/-- Interleaving semantics of the dispatcher under `asyncio.Semaphore C`: any
waiting task may acquire a slot when fewer than `C` are held; a running task
may take its next suspension-point step (keeping the slot, also across
backoff sleeps); a task whose body is exhausted releases its slot. -/
inductive DispatchStep (C : Nat) : List TaskPhase → List TaskPhase → Prop where
  | acquire (ps : List TaskPhase) (i : Nat) (body : List TaskAction) :
      ps[i]? = some (.waiting body) → runningCount ps < C →
      DispatchStep C ps (ps.set i (.running body))
  | work (ps : List TaskPhase) (i : Nat) (a : TaskAction) (rest : List TaskAction) :
      ps[i]? = some (.running (a :: rest)) →
      DispatchStep C ps (ps.set i (.running rest))
  | release (ps : List TaskPhase) (i : Nat) :
      ps[i]? = some (.running []) →
      DispatchStep C ps (ps.set i .finished)

/-- The dispatcher's start state: every submitted task waiting. -/
def initPhases (specs : List TaskSpec) (maxRetries : Nat) : List TaskPhase :=
  specs.map fun s => .waiting (taskBody s maxRetries)

/-! ## Dispatcher lemmas and claim theorems -/

theorem SIMILARITY_THRESHOLD_eq : SIMILARITY_THRESHOLD = 45 / 100 := by
  rw [SIMILARITY_THRESHOLD]
  rw [Rat.mk'_eq_divInt, Rat.divInt_eq_div]
  norm_num

theorem idx_process_single (mf fb : String) (mr i : Nat) (s : TaskSpec) :
    (process_single_with_retry mf fb mr i s).idx = i := by
  unfold process_single_with_retry
  split
  · rfl
  · split
    · split <;> rfl
    · rfl

theorem dispatchTuples_map_idx (mf fb : String) (mr : Nat) (specs : List TaskSpec) :
    (dispatchTuples mf fb mr specs).map (·.idx) = List.range specs.length := by
  unfold dispatchTuples
  rw [List.map_map]
  have h : ((fun t : ResultTuple => t.idx) ∘ fun p : Nat × TaskSpec =>
      process_single_with_retry mf fb mr p.1 p.2) = Prod.fst := by
    funext p
    exact idx_process_single mf fb mr p.1 p.2
  rw [h, List.enum_map_fst]

theorem dispatchTuples_pairwise_lt (mf fb : String) (mr : Nat) (specs : List TaskSpec) :
    (dispatchTuples mf fb mr specs).Pairwise idxLt := by
  have h := List.pairwise_lt_range specs.length
  rw [← dispatchTuples_map_idx mf fb mr specs] at h
  exact (List.pairwise_map (f := fun t : ResultTuple => t.idx)).mp h

theorem sortByIdx_eq_self_of_pairwise_lt {l : List ResultTuple} (h : l.Pairwise idxLt) :
    sortByIdx l = l :=
  List.Sorted.insertionSort_eq (h.imp fun hab => Nat.le_of_lt hab)

theorem sortByIdx_eq_of_perm {l completed : List ResultTuple}
    (hp : completed.Perm l) (hs : l.Pairwise idxLt) : sortByIdx completed = l := by
  have hperm : (sortByIdx completed).Perm l :=
    (List.perm_insertionSort idxLe completed).trans hp
  have hnodupl : (l.map (·.idx)).Nodup :=
    List.pairwise_map.mpr (hs.imp fun hab => Nat.ne_of_lt hab)
  have hnodup : ((sortByIdx completed).map (·.idx)).Nodup :=
    ((hperm.map _).nodup_iff).mpr hnodupl
  have hsorted : (sortByIdx completed).Pairwise idxLe :=
    List.sorted_insertionSort idxLe completed
  have hne : (sortByIdx completed).Pairwise (fun a b => a.idx ≠ b.idx) :=
    List.pairwise_map.mp hnodup
  have hlt : (sortByIdx completed).Pairwise idxLt :=
    (hsorted.and hne).imp fun hab => Nat.lt_of_le_of_ne hab.1 hab.2
  exact List.eq_of_perm_of_sorted hperm hlt hs

/-- C1: for every batch of N tasks (with valid model names), the dispatcher
returns `.ok` with exactly N results, result `i` being the outcome of task `i`;
this holds for any completion order of the gathered tuples, and no executor
exception escapes (all outcomes are encoded in the returned values). -/
theorem dispatcher_returns_all_results_in_order (mf fb : String) (mr : Nat)
    (specs : List TaskSpec) (hm : mf ∈ modelMapNames) (hf : fb ∈ modelMapNames) :
    ∃ out : List (Option String),
      process_batch_parallel_with_retry mf fb mr specs = .ok out ∧
      out.length = specs.length ∧
      (∀ i, out[i]? = (specs[i]?).map
        fun s => (process_single_with_retry mf fb mr i s).result) ∧
      ∀ completed : List ResultTuple,
        completed.Perm (dispatchTuples mf fb mr specs) →
        (sortByIdx completed).map (·.result) = out := by
  refine ⟨(dispatchTuples mf fb mr specs).map (·.result), ?_, ?_, ?_, ?_⟩
  · unfold process_batch_parallel_with_retry
    rw [if_neg (not_not_intro hm), if_neg (not_not_intro hf),
      sortByIdx_eq_self_of_pairwise_lt (dispatchTuples_pairwise_lt mf fb mr specs)]
  · simp [dispatchTuples]
  · intro i
    simp only [dispatchTuples, List.getElem?_map, List.getElem?_enum, Option.map_map]
    cases specs[i]? <;> rfl
  · intro completed hperm
    rw [sortByIdx_eq_of_perm hperm (dispatchTuples_pairwise_lt mf fb mr specs)]

theorem dispatcher_returns_all_results_in_order_witness :
    "gpt5" ∈ modelMapNames ∧ "claude_sonnet" ∈ modelMapNames ∧
    ∃ out : List (Option String),
      process_batch_parallel_with_retry "gpt5" "claude_sonnet" 3
        [exSpecOk, alwaysFailSpec] = .ok out ∧
      out.length = [exSpecOk, alwaysFailSpec].length ∧
      (∀ i, out[i]? = ([exSpecOk, alwaysFailSpec][i]?).map
        fun s => (process_single_with_retry "gpt5" "claude_sonnet" 3 i s).result) ∧
      ∀ completed : List ResultTuple,
        completed.Perm (dispatchTuples "gpt5" "claude_sonnet" 3 [exSpecOk, alwaysFailSpec]) →
        (sortByIdx completed).map (·.result) = out :=
  ⟨by decide, by decide,
    dispatcher_returns_all_results_in_order "gpt5" "claude_sonnet" 3
      [exSpecOk, alwaysFailSpec] (by decide) (by decide)⟩

theorem primaryLoop_snd_le (prim : Nat → Except String String) :
    ∀ (fuel attempt : Nat), (primaryLoop prim attempt fuel).2 ≤ fuel := by
  intro fuel
  induction fuel with
  | zero => intro attempt; exact Nat.le_refl 0
  | succ n ih =>
    intro attempt
    cases h : prim attempt with
    | ok r =>
      by_cases hr : nonEmptyResponse r
      · simp [primaryLoop, h, hr]
      · simpa [primaryLoop, h, hr] using ih (attempt + 1)
    | error e => simpa [primaryLoop, h] using ih (attempt + 1)

theorem primaryLoop_all_fail (prim : Nat → Except String String) :
    ∀ (fuel attempt : Nat),
      (∀ a, a < fuel → failsOrEmpty (prim (attempt + a)) = true) →
      primaryLoop prim attempt fuel = (none, fuel) := by
  intro fuel
  induction fuel with
  | zero => intro attempt _; rfl
  | succ n ih =>
    intro attempt hfail
    have h0 := hfail 0 (Nat.succ_pos n)
    rw [Nat.add_zero] at h0
    have hrest : primaryLoop prim (attempt + 1) n = (none, n) := by
      apply ih
      intro a ha
      have h := hfail (a + 1) (Nat.succ_lt_succ ha)
      rwa [show attempt + (a + 1) = attempt + 1 + a by omega] at h
    cases h : prim attempt with
    | ok r =>
      rw [h] at h0
      simp only [failsOrEmpty, Bool.not_eq_true'] at h0
      simp [primaryLoop, h, h0, hrest]
    | error e => simp [primaryLoop, h, hrest]

/-- C2 (amended): if every one of the `max_retries = R` primary attempts fails
or returns empty, the primary executor is called exactly R times (the loop is
`for attempt in range(max_retries)`, so R counts total primary attempts — one
initial call plus R−1 retries, not R retries after an initial call), the
fallback is then invoked exactly once, for R+1 total remote calls; a
non-empty fallback success is recorded under the fallback's identity; and no
task ever performs more than R+1 total remote-call attempts. -/
theorem retry_counts_amended (spec : TaskSpec) (R : Nat)
    (hfail : ((List.range R).all fun a => failsOrEmpty (spec.primary a)) = true) :
    primaryCalls spec R = R ∧ fallbackCalls spec R = 1 ∧ totalCalls spec R = R + 1 ∧
    (∀ mf fb i r, spec.fallback = .ok r → nonEmptyResponse r = true →
      (process_single_with_retry mf fb R i spec).model = some fb) ∧
    ∀ spec' : TaskSpec, totalCalls spec' R ≤ R + 1 := by
  have hloop : primaryLoop spec.primary 0 R = (none, R) := by
    apply primaryLoop_all_fail
    intro a ha
    have h := List.all_eq_true.mp hfail a (List.mem_range.mpr ha)
    simpa using h
  refine ⟨?_, ?_, ?_, ?_, ?_⟩
  · rw [primaryCalls, hloop]
  · rw [fallbackCalls, hloop]
    rfl
  · rw [totalCalls, primaryCalls, fallbackCalls, hloop]
    rfl
  · intro mf fb i r hr hne
    simp [process_single_with_retry, hloop, hr, hne]
  · intro spec'
    have h1 : primaryCalls spec' R ≤ R := primaryLoop_snd_le spec'.primary R 0
    have h2 : fallbackCalls spec' R ≤ 1 := by
      rw [fallbackCalls]
      split <;> omega
    rw [totalCalls]
    omega

theorem retry_counts_amended_witness :
    ((List.range 2).all fun a => failsOrEmpty (alwaysEmptySpec.primary a)) = true ∧
    (primaryCalls alwaysEmptySpec 2 = 2 ∧ fallbackCalls alwaysEmptySpec 2 = 1 ∧
      totalCalls alwaysEmptySpec 2 = 2 + 1 ∧
      (∀ mf fb i r, alwaysEmptySpec.fallback = .ok r → nonEmptyResponse r = true →
        (process_single_with_retry mf fb 2 i alwaysEmptySpec).model = some fb) ∧
      ∀ spec' : TaskSpec, totalCalls spec' 2 ≤ 2 + 1) :=
  ⟨by decide, retry_counts_amended alwaysEmptySpec 2 (by decide)⟩

/-- C2 counterexample: with `max_retries = 3` and a primary executor that
always throws, the code performs 3 primary attempts (not the claimed
R+1 = 4) before the single fallback call, for 4 total attempts (not R+2 = 5
as the claimed worst case). -/
theorem retry_counts_counterexample :
    primaryCalls alwaysFailSpec 3 = 3 ∧ ¬ primaryCalls alwaysFailSpec 3 = 3 + 1 ∧
    totalCalls alwaysFailSpec 3 = 4 ∧
    (process_single_with_retry "gpt5" "claude_sonnet" 3 0 alwaysFailSpec).model =
      some "claude_sonnet" := by decide

/-- C5 (amended): when the primary executor exhausts all its attempts, the
*internal* per-task tuple carries a failure reason distinguishing the
fallback-returned-empty case ("Fallback also returned empty") from the
fallback-threw case ("Fallback failed: ..."), and those two reasons are never
equal; but the result value delivered for the task is `None` — the batch
dispatcher's returned list drops the reason (it returns only `r[1]`). -/
theorem failure_reason_amended (spec : TaskSpec) (R : Nat) (mf fb : String) (i : Nat)
    (hfail : ((List.range R).all fun a => failsOrEmpty (spec.primary a)) = true) :
    (∀ r, spec.fallback = .ok r → nonEmptyResponse r = false →
      (process_single_with_retry mf fb R i spec).error = some "Fallback also returned empty" ∧
      (process_single_with_retry mf fb R i spec).result = none) ∧
    (∀ e, spec.fallback = .error e →
      (process_single_with_retry mf fb R i spec).error = some ("Fallback failed: " ++ e) ∧
      (process_single_with_retry mf fb R i spec).result = none) ∧
    ∀ e, "Fallback also returned empty" ≠ "Fallback failed: " ++ e := by
  have hloop : primaryLoop spec.primary 0 R = (none, R) := by
    apply primaryLoop_all_fail
    intro a ha
    have h := List.all_eq_true.mp hfail a (List.mem_range.mpr ha)
    simpa using h
  refine ⟨?_, ?_, ?_⟩
  · intro r hr hne
    constructor <;> simp [process_single_with_retry, hloop, hr, hne]
  · intro e he
    constructor <;> simp [process_single_with_retry, hloop, he]
  · intro e
    obtain ⟨le⟩ := e
    intro h
    have h2 : "Fallback also returned empty".data = "Fallback failed: ".data ++ le :=
      congrArg String.data h
    simp at h2

theorem failure_reason_amended_witness :
    ((List.range 1).all fun a => failsOrEmpty (bothFailEmptySpec.primary a)) = true ∧
    ((∀ r, bothFailEmptySpec.fallback = .ok r → nonEmptyResponse r = false →
      (process_single_with_retry "gpt5" "claude_sonnet" 1 0 bothFailEmptySpec).error =
        some "Fallback also returned empty" ∧
      (process_single_with_retry "gpt5" "claude_sonnet" 1 0 bothFailEmptySpec).result = none) ∧
    (∀ e, bothFailEmptySpec.fallback = .error e →
      (process_single_with_retry "gpt5" "claude_sonnet" 1 0 bothFailEmptySpec).error =
        some ("Fallback failed: " ++ e) ∧
      (process_single_with_retry "gpt5" "claude_sonnet" 1 0 bothFailEmptySpec).result = none) ∧
    ∀ e, "Fallback also returned empty" ≠ "Fallback failed: " ++ e) :=
  ⟨by decide, failure_reason_amended bothFailEmptySpec 1 "gpt5" "claude_sonnet" 0 (by decide)⟩

/-- C5 counterexample: two tasks, one whose fallback returns empty and one
whose fallback throws, produce *identical* delivered batch results `[None]`:
the distinguishable reason is not part of the result delivered to the caller,
even though the internal tuples' reasons differ. -/
theorem failure_reason_counterexample :
    process_batch_parallel_with_retry "gpt5" "claude_sonnet" 3 [bothFailEmptySpec] =
      .ok [none] ∧
    process_batch_parallel_with_retry "gpt5" "claude_sonnet" 3 [bothFailExnSpec] =
      .ok [none] ∧
    (process_single_with_retry "gpt5" "claude_sonnet" 3 0 bothFailEmptySpec).error ≠
      (process_single_with_retry "gpt5" "claude_sonnet" 3 0 bothFailExnSpec).error := by
  decide

/-! ## Refinement controller: C3 -/

theorem search_vectors_iteration (env : Nat → List SearchMatch) (s : RetrieverState) :
    (search_vectors env s).iteration_count = some (s.iteration_count.getD 0 + 1) := rfl

theorem process_query_iteration (env : QueryEnv) (s : RetrieverState) :
    (process_query env s).iteration_count = s.iteration_count := by
  unfold process_query
  dsimp only
  split <;> rfl

theorem generate_answer_iteration (llm : String → String → String) (s : RetrieverState) :
    (generate_answer llm s).1.iteration_count = s.iteration_count := rfl

theorem route_refine_iff (s : RetrieverState) :
    route_after_retrieval s = "refine" ↔
      (s.needs_refinement.getD false = true ∧
        s.iteration_count.getD 0 < MAX_ITERATIONS) := by
  unfold route_after_retrieval
  split
  · rename_i hc
    exact iff_of_true rfl hc
  · rename_i hc
    exact iff_of_false (by decide) hc

theorem runLoop_iteration_le (env : WorkflowEnv) :
    ∀ (n : Nat) (s : RetrieverState), MAX_ITERATIONS - s.iteration_count.getD 0 ≤ n →
      s.iteration_count.getD 0 < MAX_ITERATIONS →
      (runLoop env s).iteration_count.getD 0 ≤ MAX_ITERATIONS := by
  intro n
  induction n with
  | zero => intro s h1 h2; omega
  | succ n ih =>
    intro s h1 h2
    have hs1 : (search_vectors (env.searchEnv (s.iteration_count.getD 0))
        (process_query (env.queryEnv (s.iteration_count.getD 0)) s)).iteration_count =
        some (s.iteration_count.getD 0 + 1) := by
      rw [search_vectors_iteration, process_query_iteration]
    rw [runLoop]
    split
    · rename_i hr
      apply ih
      · rw [hs1]
        simp only [Option.getD_some]
        omega
      · have := (route_refine_iff _).mp hr
        exact this.2
    · rw [generate_answer_iteration, hs1]
      simp only [Option.getD_some]
      omega

/-- C3: the search stage increments `iteration_count` by exactly 1 per pass,
the controller loops back exactly while `needs_refinement` holds and
`iteration_count < MAX_ITERATIONS`, and every final state of the workflow
satisfies `iteration_count ≤ MAX_ITERATIONS`, whatever the search and model
oracles return (in particular when sufficiency is never reached). -/
theorem iteration_count_bounded :
    (∀ env s, (search_vectors env s).iteration_count =
      some (s.iteration_count.getD 0 + 1)) ∧
    (∀ s, route_after_retrieval s = "refine" ↔
      (s.needs_refinement.getD false = true ∧
        s.iteration_count.getD 0 < MAX_ITERATIONS)) ∧
    ∀ env q, (run_retrieval env q).iteration_count.getD 0 ≤ MAX_ITERATIONS := by
  refine ⟨fun env s => rfl, route_refine_iff, ?_⟩
  intro env q
  unfold run_retrieval
  apply runLoop_iteration_le env MAX_ITERATIONS
  · exact Nat.sub_le _ _
  · show (0 : Nat) < MAX_ITERATIONS
    decide

theorem iteration_count_bounded_witness :
    (run_retrieval emptyWorkflowEnv "q").iteration_count.getD 0 ≤ MAX_ITERATIONS ∧
    (route_after_retrieval exRefineState = "refine" ↔
      (exRefineState.needs_refinement.getD false = true ∧
        exRefineState.iteration_count.getD 0 < MAX_ITERATIONS)) :=
  ⟨iteration_count_bounded.2.2 emptyWorkflowEnv "q",
    iteration_count_bounded.2.1 exRefineState⟩

/-! ## Vector search: C10 -/

/-- C10: in every state returned by `search_vectors`, `retrieval_scores` is
exactly the score list of `retrieved_chunks` (same length, pointwise equal)
and both are sorted in descending score order. -/
theorem retrieval_scores_match_chunks (env : Nat → List SearchMatch)
    (state : RetrieverState) :
    ((search_vectors env state).retrieval_scores =
      some (((search_vectors env state).retrieved_chunks.getD []).map (·.score))) ∧
    (((search_vectors env state).retrieval_scores.getD []).length =
      ((search_vectors env state).retrieved_chunks.getD []).length) ∧
    (∀ i : Nat, ((search_vectors env state).retrieval_scores.getD [])[i]? =
      (((search_vectors env state).retrieved_chunks.getD [])[i]?).map
        (fun c : RetrievedChunk => c.score)) ∧
    ((search_vectors env state).retrieved_chunks.getD []).Pairwise scoreGe ∧
    ((search_vectors env state).retrieval_scores.getD []).Pairwise
      (fun a b => b ≤ a) := by
  have hchunks : (search_vectors env state).retrieved_chunks.getD [] =
      sortByScoreDesc (mergeMatches (gatherMatches env (allQueries state).length)) := rfl
  have hscores : (search_vectors env state).retrieval_scores.getD [] =
      ((search_vectors env state).retrieved_chunks.getD []).map (·.score) := rfl
  have hsorted : ((search_vectors env state).retrieved_chunks.getD []).Pairwise scoreGe := by
    rw [hchunks]
    exact List.sorted_insertionSort scoreGe _
  refine ⟨rfl, ?_, ?_, hsorted, ?_⟩
  · rw [hscores, List.length_map]
  · intro i
    rw [hscores, List.getElem?_map]
  · rw [hscores]
    exact (List.pairwise_map (f := fun c : RetrievedChunk => c.score)).mpr hsorted

/-! ## Vector search merge: C4 -/

theorem mem_insertMatch (q : Nat) (m : SearchMatch) :
    ∀ (acc : List RetrievedChunk), (acc.map (·.id)).Nodup →
      ∀ c' ∈ insertMatch q m acc,
        c' ∈ acc ∨ (c' = mkChunk q m ∧ ∀ c ∈ acc, c.id = m.id → c.score ≤ m.score) := by
  intro acc
  induction acc with
  | nil =>
    intro _ c' hc'
    simp only [insertMatch, List.mem_singleton] at hc'
    exact Or.inr ⟨hc', by simp⟩
  | cons a acc ih =>
    intro hnd c' hc'
    rw [List.map_cons, List.nodup_cons] at hnd
    obtain ⟨hna, hnd'⟩ := hnd
    by_cases hid : a.id = m.id
    · rw [insertMatch, if_pos hid] at hc'
      by_cases hsc : a.score < m.score
      · rw [if_pos hsc] at hc'
        rcases List.mem_cons.mp hc' with h | h
        · refine Or.inr ⟨h, ?_⟩
          intro c hc hcid
          rcases List.mem_cons.mp hc with rfl | hc
          · exact le_of_lt hsc
          · exact absurd (List.mem_map.mpr ⟨c, hc, hcid.trans hid.symm⟩) hna
        · exact Or.inl (List.mem_cons_of_mem a h)
      · rw [if_neg hsc] at hc'
        exact Or.inl hc'
    · rw [insertMatch, if_neg hid] at hc'
      rcases List.mem_cons.mp hc' with rfl | h
      · exact Or.inl (List.mem_cons_self _ _)
      · rcases ih hnd' c' h with h' | ⟨heq, hall⟩
        · exact Or.inl (List.mem_cons_of_mem a h')
        · refine Or.inr ⟨heq, ?_⟩
          intro c hc hcid
          rcases List.mem_cons.mp hc with rfl | hc
          · exact absurd hcid hid
          · exact hall c hc hcid

theorem insertMatch_id_score (q : Nat) (m : SearchMatch) :
    ∀ (acc : List RetrievedChunk), (acc.map (·.id)).Nodup →
      ∀ c' ∈ insertMatch q m acc, c'.id = m.id → m.score ≤ c'.score := by
  intro acc
  induction acc with
  | nil =>
    intro _ c' hc' _
    simp only [insertMatch, List.mem_singleton] at hc'
    rw [hc']
    exact le_refl _
  | cons a acc ih =>
    intro hnd c' hc' hcid
    rw [List.map_cons, List.nodup_cons] at hnd
    obtain ⟨hna, hnd'⟩ := hnd
    by_cases hid : a.id = m.id
    · rw [insertMatch, if_pos hid] at hc'
      by_cases hsc : a.score < m.score
      · rw [if_pos hsc] at hc'
        rcases List.mem_cons.mp hc' with rfl | h
        · exact le_refl _
        · exact absurd (List.mem_map.mpr ⟨c', h, hcid.trans hid.symm⟩) hna
      · rw [if_neg hsc] at hc'
        rcases List.mem_cons.mp hc' with rfl | h
        · exact not_lt.mp hsc
        · exact absurd (List.mem_map.mpr ⟨c', h, hcid.trans hid.symm⟩) hna
    · rw [insertMatch, if_neg hid] at hc'
      rcases List.mem_cons.mp hc' with rfl | h
      · exact absurd hcid hid
      · exact ih hnd' c' h hcid

theorem insertMatch_exists_id (q : Nat) (m : SearchMatch) :
    ∀ (acc : List RetrievedChunk), ∃ c' ∈ insertMatch q m acc, c'.id = m.id := by
  intro acc
  induction acc with
  | nil => exact ⟨mkChunk q m, by simp [insertMatch], rfl⟩
  | cons a acc ih =>
    by_cases hid : a.id = m.id
    · rw [insertMatch, if_pos hid]
      by_cases hsc : a.score < m.score
      · rw [if_pos hsc]
        exact ⟨mkChunk q m, List.mem_cons_self _ _, rfl⟩
      · rw [if_neg hsc]
        exact ⟨a, List.mem_cons_self _ _, hid⟩
    · rw [insertMatch, if_neg hid]
      obtain ⟨c', hc', hcid⟩ := ih
      exact ⟨c', List.mem_cons_of_mem a hc', hcid⟩

theorem insertMatch_mem_of_ne (q : Nat) (m : SearchMatch) :
    ∀ (acc : List RetrievedChunk) (c : RetrievedChunk), c ∈ acc → c.id ≠ m.id →
      c ∈ insertMatch q m acc := by
  intro acc
  induction acc with
  | nil =>
    intro c hc _
    exact absurd hc (List.not_mem_nil c)
  | cons a acc ih =>
    intro c hc hne
    by_cases hid : a.id = m.id
    · rw [insertMatch, if_pos hid]
      rcases List.mem_cons.mp hc with rfl | hc
      · exact absurd hid hne
      · exact List.mem_cons_of_mem _ hc
    · rw [insertMatch, if_neg hid]
      rcases List.mem_cons.mp hc with rfl | hc
      · exact List.mem_cons_self _ _
      · exact List.mem_cons_of_mem _ (ih c hc hne)

theorem insertMatch_id_mem (q : Nat) (m : SearchMatch) :
    ∀ (acc : List RetrievedChunk) (x : String),
      x ∈ (insertMatch q m acc).map (·.id) → x ∈ acc.map (·.id) ∨ x = m.id := by
  intro acc
  induction acc with
  | nil =>
    intro x hx
    simp only [insertMatch, List.map_cons, List.map_nil, List.mem_singleton] at hx
    exact Or.inr hx
  | cons a acc ih =>
    intro x hx
    by_cases hid : a.id = m.id
    · rw [insertMatch, if_pos hid, List.map_cons, List.mem_cons] at hx
      rcases hx with hx | hx
      · by_cases hsc : a.score < m.score
        · rw [if_pos hsc] at hx
          exact Or.inr hx
        · rw [if_neg hsc] at hx
          exact Or.inl (by rw [List.map_cons, List.mem_cons]; exact Or.inl hx)
      · exact Or.inl (by rw [List.map_cons, List.mem_cons]; exact Or.inr hx)
    · rw [insertMatch, if_neg hid, List.map_cons, List.mem_cons] at hx
      rcases hx with hx | hx
      · exact Or.inl (by rw [List.map_cons, List.mem_cons]; exact Or.inl hx)
      · rcases ih x hx with h | h
        · exact Or.inl (by rw [List.map_cons, List.mem_cons]; exact Or.inr h)
        · exact Or.inr h

theorem insertMatch_nodup (q : Nat) (m : SearchMatch) :
    ∀ (acc : List RetrievedChunk), (acc.map (·.id)).Nodup →
      ((insertMatch q m acc).map (·.id)).Nodup := by
  intro acc
  induction acc with
  | nil => intro _; simp [insertMatch]
  | cons a acc ih =>
    intro hnd
    rw [List.map_cons, List.nodup_cons] at hnd
    obtain ⟨hna, hnd'⟩ := hnd
    by_cases hid : a.id = m.id
    · rw [insertMatch, if_pos hid, List.map_cons, List.nodup_cons]
      refine ⟨?_, hnd'⟩
      by_cases hsc : a.score < m.score
      · rw [if_pos hsc]
        show m.id ∉ acc.map (·.id)
        rw [← hid]
        exact hna
      · rw [if_neg hsc]
        exact hna
    · rw [insertMatch, if_neg hid, List.map_cons, List.nodup_cons]
      refine ⟨?_, ih hnd'⟩
      intro hmem
      rcases insertMatch_id_mem q m acc a.id hmem with h | h
      · exact hna h
      · exact hid h

theorem mergeInvariant_step {done : List (Nat × SearchMatch)}
    {acc : List RetrievedChunk} (hInv : MergeInvariant done acc)
    (p : Nat × SearchMatch) : MergeInvariant (done ++ [p]) (applyMatch acc p) := by
  obtain ⟨hnd, hmem, hcov⟩ := hInv
  by_cases hth : SIMILARITY_THRESHOLD ≤ p.2.score
  case neg =>
    rw [applyMatch, if_neg hth]
    refine ⟨hnd, ?_, ?_⟩
    · intro c hc
      obtain ⟨h1, ⟨p', hp', hp'2⟩, h3⟩ := hmem c hc
      refine ⟨h1, ⟨p', List.mem_append_left _ hp', hp'2⟩, ?_⟩
      intro p'' hp'' hid hth'
      rcases List.mem_append.mp hp'' with h | h
      · exact h3 p'' h hid hth'
      · rw [List.mem_singleton] at h
        subst h
        exact absurd hth' hth
    · intro p'' hp'' hth'
      rcases List.mem_append.mp hp'' with h | h
      · exact hcov p'' h hth'
      · rw [List.mem_singleton] at h
        subst h
        exact absurd hth' hth
  case pos =>
    rw [applyMatch, if_pos hth]
    refine ⟨insertMatch_nodup _ _ acc hnd, ?_, ?_⟩
    · intro c' hc'
      rcases mem_insertMatch _ _ acc hnd c' hc' with hin | ⟨heq, hdom⟩
      · obtain ⟨h1, ⟨p', hp', hp'2⟩, h3⟩ := hmem c' hin
        refine ⟨h1, ⟨p', List.mem_append_left _ hp', hp'2⟩, ?_⟩
        intro p'' hp'' hid hth'
        rcases List.mem_append.mp hp'' with h | h
        · exact h3 p'' h hid hth'
        · rw [List.mem_singleton] at h
          subst h
          exact insertMatch_id_score _ _ acc hnd c' hc' hid.symm
      · subst heq
        refine ⟨hth, ⟨p, List.mem_append_right _ (List.mem_singleton_self p), hth, rfl⟩, ?_⟩
        intro p'' hp'' hid hth'
        rcases List.mem_append.mp hp'' with h | h
        · obtain ⟨c, hc, hcid⟩ := hcov p'' h hth'
          obtain ⟨_, _, h3⟩ := hmem c hc
          have h4 := h3 p'' h hcid.symm hth'
          have h5 : c.score ≤ p.2.score := by
            apply hdom c hc
            rw [hcid]
            exact hid
          exact le_trans h4 h5
        · rw [List.mem_singleton] at h
          subst h
          exact le_refl _
    · intro p'' hp'' hth'
      rcases List.mem_append.mp hp'' with h | h
      · obtain ⟨c, hc, hcid⟩ := hcov p'' h hth'
        by_cases hcm : c.id = p.2.id
        · obtain ⟨c'', hc'', hcid''⟩ := insertMatch_exists_id p.1 p.2 acc
          refine ⟨c'', hc'', ?_⟩
          rw [hcid'', ← hcm]
          exact hcid
        · exact ⟨c, insertMatch_mem_of_ne _ _ acc c hc hcm, hcid⟩
      · rw [List.mem_singleton] at h
        rw [h]
        obtain ⟨c'', hc'', hcid''⟩ := insertMatch_exists_id p.1 p.2 acc
        exact ⟨c'', hc'', hcid''⟩

theorem mergeInvariant_foldl :
    ∀ (rest done : List (Nat × SearchMatch)) (acc : List RetrievedChunk),
      MergeInvariant done acc →
      MergeInvariant (done ++ rest) (rest.foldl applyMatch acc) := by
  intro rest
  induction rest with
  | nil =>
    intro done acc h
    simpa using h
  | cons p ps ih =>
    intro done acc h
    have h2 := ih (done ++ [p]) (applyMatch acc p) (mergeInvariant_step h p)
    rw [List.append_assoc] at h2
    exact h2

theorem mergeMatches_invariant (pairs : List (Nat × SearchMatch)) :
    MergeInvariant pairs (mergeMatches pairs) := by
  have h := mergeInvariant_foldl pairs [] []
    ⟨List.nodup_nil, fun c hc => absurd hc (List.not_mem_nil c),
      fun p hp => absurd hp (List.not_mem_nil p)⟩
  simpa using h

theorem filter_id_length_one :
    ∀ {l : List RetrievedChunk}, (l.map (·.id)).Nodup → ∀ {c : RetrievedChunk}, c ∈ l →
      (l.filter (fun d => d.id == c.id)).length = 1 := by
  intro l
  induction l with
  | nil =>
    intro _ c hc
    exact absurd hc (List.not_mem_nil c)
  | cons a l ih =>
    intro hnd c hc
    rw [List.map_cons, List.nodup_cons] at hnd
    obtain ⟨hna, hnd'⟩ := hnd
    rcases List.mem_cons.mp hc with rfl | hc
    · have hpos : (c.id == c.id) = true := by simp
      rw [List.filter_cons, if_pos hpos]
      have hnil : l.filter (fun d => d.id == c.id) = [] := by
        rw [List.filter_eq_nil]
        intro d hd
        simp only [beq_iff_eq]
        intro hdc
        exact hna (List.mem_map.mpr ⟨d, hd, hdc⟩)
      rw [hnil]
      rfl
    · have hne : ¬((a.id == c.id) = true) := by
        simp only [beq_iff_eq]
        intro h
        exact hna (List.mem_map.mpr ⟨c, hc, h.symm⟩)
      rw [List.filter_cons, if_neg hne]
      exact ih hnd' hc

/-- C4: in the merged result of `search_vectors`, every chunk id occurs
exactly once, every retained entry originates verbatim from a surviving
match of some query, its score is the maximum over all surviving matches
with that id, and it meets the similarity threshold. -/
theorem search_vectors_dedup_max_threshold (env : Nat → List SearchMatch)
    (state : RetrieverState) :
    ∀ c ∈ (search_vectors env state).retrieved_chunks.getD [],
      SIMILARITY_THRESHOLD ≤ c.score ∧
      (((search_vectors env state).retrieved_chunks.getD []).filter
        (fun d => d.id == c.id)).length = 1 ∧
      (∃ p ∈ gatherMatches env (allQueries state).length,
        SIMILARITY_THRESHOLD ≤ p.2.score ∧ c = mkChunk p.1 p.2) ∧
      ∀ p ∈ gatherMatches env (allQueries state).length,
        p.2.id = c.id → SIMILARITY_THRESHOLD ≤ p.2.score → p.2.score ≤ c.score := by
  intro c hc
  have hchunks : (search_vectors env state).retrieved_chunks.getD [] =
      sortByScoreDesc (mergeMatches (gatherMatches env (allQueries state).length)) := rfl
  obtain ⟨hnd, hmem, _⟩ := mergeMatches_invariant (gatherMatches env (allQueries state).length)
  rw [hchunks] at hc
  have hcm : c ∈ mergeMatches (gatherMatches env (allQueries state).length) :=
    (List.mem_insertionSort scoreGe).mp hc
  obtain ⟨h1, h2, h3⟩ := hmem c hcm
  refine ⟨h1, ?_, h2, h3⟩
  have hpf : ((sortByScoreDesc (mergeMatches
        (gatherMatches env (allQueries state).length))).filter
        (fun d => d.id == c.id)).length =
      ((mergeMatches (gatherMatches env (allQueries state).length)).filter
        (fun d => d.id == c.id)).length :=
    ((List.perm_insertionSort scoreGe
      (mergeMatches (gatherMatches env (allQueries state).length))).filter
      (fun d => d.id == c.id)).length_eq
  rw [hchunks, hpf]
  exact filter_id_length_one hnd hcm

theorem search_vectors_dedup_max_threshold_witness :
    mkChunk 1 exMatchB ∈ (search_vectors exSearchEnv exSearchState).retrieved_chunks.getD [] ∧
    (SIMILARITY_THRESHOLD ≤ (mkChunk 1 exMatchB).score ∧
      (((search_vectors exSearchEnv exSearchState).retrieved_chunks.getD []).filter
        (fun d => d.id == (mkChunk 1 exMatchB).id)).length = 1 ∧
      (∃ p ∈ gatherMatches exSearchEnv (allQueries exSearchState).length,
        SIMILARITY_THRESHOLD ≤ p.2.score ∧ mkChunk 1 exMatchB = mkChunk p.1 p.2) ∧
      ∀ p ∈ gatherMatches exSearchEnv (allQueries exSearchState).length,
        p.2.id = (mkChunk 1 exMatchB).id → SIMILARITY_THRESHOLD ≤ p.2.score →
          p.2.score ≤ (mkChunk 1 exMatchB).score) :=
  ⟨by decide,
    search_vectors_dedup_max_threshold exSearchEnv exSearchState
      (mkChunk 1 exMatchB) (by decide)⟩

/-! ## Merge algebra: C8 -/

theorem insertMatch_eq_self (q : Nat) (m : SearchMatch) :
    ∀ (acc : List RetrievedChunk), (acc.map (·.id)).Nodup →
      (∃ c ∈ acc, c.id = m.id ∧ m.score ≤ c.score) → insertMatch q m acc = acc := by
  intro acc
  induction acc with
  | nil =>
    intro _ h
    obtain ⟨c, hc, _⟩ := h
    exact absurd hc (List.not_mem_nil c)
  | cons a acc ih =>
    intro hnd h
    rw [List.map_cons, List.nodup_cons] at hnd
    obtain ⟨hna, hnd'⟩ := hnd
    obtain ⟨c, hc, hcid, hcsc⟩ := h
    by_cases hid : a.id = m.id
    · rw [insertMatch, if_pos hid]
      rcases List.mem_cons.mp hc with rfl | hc
      · rw [if_neg (not_lt.mpr hcsc)]
      · exact absurd (List.mem_map.mpr ⟨c, hc, hcid.trans hid.symm⟩) hna
    · rw [insertMatch, if_neg hid]
      rcases List.mem_cons.mp hc with rfl | hc
      · exact absurd hcid hid
      · rw [ih hnd' ⟨c, hc, hcid, hcsc⟩]

theorem applyMatch_absorb {done : List (Nat × SearchMatch)} {acc : List RetrievedChunk}
    (hInv : MergeInvariant done acc) {p : Nat × SearchMatch} (hp : p ∈ done) :
    applyMatch acc p = acc := by
  obtain ⟨hnd, hmem, hcov⟩ := hInv
  by_cases hth : SIMILARITY_THRESHOLD ≤ p.2.score
  · rw [applyMatch, if_pos hth]
    obtain ⟨c, hc, hcid⟩ := hcov p hp hth
    obtain ⟨_, _, h3⟩ := hmem c hc
    exact insertMatch_eq_self p.1 p.2 acc hnd ⟨c, hc, hcid, h3 p hp hcid.symm hth⟩
  · rw [applyMatch, if_neg hth]

theorem foldl_absorb :
    ∀ (rest : List (Nat × SearchMatch)) (done : List (Nat × SearchMatch))
      (acc : List RetrievedChunk), MergeInvariant done acc →
      (∀ p ∈ rest, p ∈ done) → rest.foldl applyMatch acc = acc := by
  intro rest
  induction rest with
  | nil => intro done acc _ _; rfl
  | cons p ps ih =>
    intro done acc hInv hsub
    have h1 : applyMatch acc p = acc := applyMatch_absorb hInv (hsub p (List.mem_cons_self _ _))
    show List.foldl applyMatch (applyMatch acc p) ps = acc
    rw [h1]
    exact ih done acc hInv fun p' hp' => hsub p' (List.mem_cons_of_mem _ hp')

theorem mergeMatches_idempotent (pairs : List (Nat × SearchMatch)) :
    mergeMatches (pairs ++ pairs) = mergeMatches pairs := by
  rw [mergeMatches, List.foldl_append]
  exact foldl_absorb pairs pairs (mergeMatches pairs) (mergeMatches_invariant pairs)
    fun p hp => hp

theorem mem_mergeMatches_of_max {pairs : List (Nat × SearchMatch)}
    (hs : (pairs.map fun p => p.2.score).Nodup) {p : Nat × SearchMatch}
    (hp : p ∈ pairs) (hth : SIMILARITY_THRESHOLD ≤ p.2.score)
    (hmax : ∀ p' ∈ pairs, p'.2.id = p.2.id → SIMILARITY_THRESHOLD ≤ p'.2.score →
      p'.2.score ≤ p.2.score) : mkChunk p.1 p.2 ∈ mergeMatches pairs := by
  obtain ⟨_, hmem, hcov⟩ := mergeMatches_invariant pairs
  obtain ⟨c, hc, hcid⟩ := hcov p hp hth
  obtain ⟨_, ⟨q, hq, hqth, hceq⟩, h3⟩ := hmem c hc
  have hqid : q.2.id = p.2.id := by
    rw [← hcid, hceq]
    rfl
  have h4 : p.2.score ≤ c.score := h3 p hp hcid.symm hth
  have h5 : q.2.score ≤ p.2.score := hmax q hq hqid hqth
  have h6 : c.score = q.2.score := by rw [hceq]; rfl
  have hqp : q = p := by
    apply List.inj_on_of_nodup_map hs hq hp
    have : q.2.score = p.2.score := le_antisymm h5 (by rw [← h6]; exact h4)
    exact this
  rw [← hqp]
  rw [← hceq]
  exact hc

theorem mem_mergeMatches_iff {pairs : List (Nat × SearchMatch)}
    (hs : (pairs.map fun p => p.2.score).Nodup) (c : RetrievedChunk) :
    c ∈ mergeMatches pairs ↔
      ∃ p ∈ pairs, SIMILARITY_THRESHOLD ≤ p.2.score ∧ c = mkChunk p.1 p.2 ∧
        ∀ p' ∈ pairs, p'.2.id = p.2.id → SIMILARITY_THRESHOLD ≤ p'.2.score →
          p'.2.score ≤ p.2.score := by
  constructor
  · intro hc
    obtain ⟨_, hmem, _⟩ := mergeMatches_invariant pairs
    obtain ⟨h1, ⟨p, hp, hpth, hceq⟩, h3⟩ := hmem c hc
    refine ⟨p, hp, hpth, hceq, ?_⟩
    intro p' hp' hid hth'
    have : p'.2.score ≤ c.score := h3 p' hp' (by rw [hid, hceq]; rfl) hth'
    rwa [hceq] at this
  · intro h
    obtain ⟨p, hp, hpth, hceq, hmax⟩ := h
    rw [hceq]
    exact mem_mergeMatches_of_max hs hp hpth hmax

theorem mergeMatches_score_nodup {pairs : List (Nat × SearchMatch)}
    (hs : (pairs.map fun p => p.2.score).Nodup) :
    ((mergeMatches pairs).map (·.score)).Nodup := by
  obtain ⟨hnd, hmem, _⟩ := mergeMatches_invariant pairs
  apply List.Nodup.map_on
  · intro x hx y hy hxy
    obtain ⟨_, ⟨p, hp, _, hpx⟩, _⟩ := hmem x hx
    obtain ⟨_, ⟨q, hq, _, hqy⟩, _⟩ := hmem y hy
    have hpq : p = q := by
      apply List.inj_on_of_nodup_map hs hp hq
      have h1 : x.score = p.2.score := by rw [hpx]; rfl
      have h2 : y.score = q.2.score := by rw [hqy]; rfl
      rw [← h1, ← h2, hxy]
    rw [hpx, hqy, hpq]
  · exact hnd.of_map

theorem sortByScoreDesc_eq_of_perm {l1 l2 : List RetrievedChunk}
    (hperm : l1.Perm l2) (h1 : (l1.map (·.score)).Nodup) :
    sortByScoreDesc l1 = sortByScoreDesc l2 := by
  have hp : (sortByScoreDesc l1).Perm (sortByScoreDesc l2) :=
    ((List.perm_insertionSort scoreGe l1).trans hperm).trans
      (List.perm_insertionSort scoreGe l2).symm
  have hs1 : (sortByScoreDesc l1).Pairwise scoreGe := List.sorted_insertionSort scoreGe l1
  have hs2 : (sortByScoreDesc l2).Pairwise scoreGe := List.sorted_insertionSort scoreGe l2
  have hn1 : ((sortByScoreDesc l1).map (·.score)).Nodup :=
    (((List.perm_insertionSort scoreGe l1).map _).nodup_iff).mpr h1
  have hn2 : ((sortByScoreDesc l2).map (·.score)).Nodup :=
    ((hp.map _).nodup_iff).mp hn1
  have hlt1 : (sortByScoreDesc l1).Pairwise scoreGt := by
    have hne := (List.pairwise_map (f := fun c : RetrievedChunk => c.score)).mp hn1
    exact (hs1.and hne).imp fun hab => lt_of_le_of_ne hab.1 (Ne.symm hab.2)
  have hlt2 : (sortByScoreDesc l2).Pairwise scoreGt := by
    have hne := (List.pairwise_map (f := fun c : RetrievedChunk => c.score)).mp hn2
    exact (hs2.and hne).imp fun hab => lt_of_le_of_ne hab.1 (Ne.symm hab.2)
  exact List.eq_of_perm_of_sorted hp hlt1 hlt2

/-- C8 (amended): merging a match list twice yields the same merged output as
merging it once (idempotence); and when all submitted match scores are
pairwise distinct, merging the per-query match lists in either order yields
the same final deduplicated, score-descending chunk list, including each
entry's recorded winning query variant.  (With tied scores the first-processed
match wins, so full commutativity fails — see the counterexample.) -/
theorem merge_idempotent_and_commutative_on_distinct_scores :
    (∀ pairs : List (Nat × SearchMatch),
      sortByScoreDesc (mergeMatches (pairs ++ pairs)) =
        sortByScoreDesc (mergeMatches pairs)) ∧
    ∀ l1 l2 : List (Nat × SearchMatch),
      ((l1 ++ l2).map fun p => p.2.score).Nodup →
      sortByScoreDesc (mergeMatches (l1 ++ l2)) =
        sortByScoreDesc (mergeMatches (l2 ++ l1)) := by
  constructor
  · intro pairs
    rw [mergeMatches_idempotent]
  · intro l1 l2 hs
    have hs' : ((l2 ++ l1).map fun p => p.2.score).Nodup := by
      refine ((List.perm_append_comm.map _).nodup_iff).mp ?_
      exact hs
    have hperm : (mergeMatches (l1 ++ l2)).Perm (mergeMatches (l2 ++ l1)) := by
      rw [List.perm_ext_iff_of_nodup
        ((mergeMatches_invariant (l1 ++ l2)).1.of_map)
        ((mergeMatches_invariant (l2 ++ l1)).1.of_map)]
      intro c
      rw [mem_mergeMatches_iff hs c, mem_mergeMatches_iff hs' c]
      constructor
      · rintro ⟨p, hp, h1, h2, h3⟩
        exact ⟨p, List.mem_append.mpr (List.mem_append.mp hp).symm, h1, h2,
          fun p' hp' => h3 p' (List.mem_append.mpr (List.mem_append.mp hp').symm)⟩
      · rintro ⟨p, hp, h1, h2, h3⟩
        exact ⟨p, List.mem_append.mpr (List.mem_append.mp hp).symm, h1, h2,
          fun p' hp' => h3 p' (List.mem_append.mpr (List.mem_append.mp hp').symm)⟩
    exact sortByScoreDesc_eq_of_perm hperm (mergeMatches_score_nodup hs)

theorem merge_idempotent_and_commutative_witness :
    (([(0, exMatchA)] ++ [(1, exMatchB)]).map (fun p : Nat × SearchMatch =>
      p.2.score)).Nodup ∧
    sortByScoreDesc (mergeMatches ([(0, exMatchA)] ++ [(1, exMatchB)])) =
      sortByScoreDesc (mergeMatches ([(1, exMatchB)] ++ [(0, exMatchA)])) ∧
    sortByScoreDesc (mergeMatches ([(0, exMatchA)] ++ [(0, exMatchA)])) =
      sortByScoreDesc (mergeMatches [(0, exMatchA)]) :=
  ⟨by decide,
    merge_idempotent_and_commutative_on_distinct_scores.2
      [(0, exMatchA)] [(1, exMatchB)] (by decide),
    merge_idempotent_and_commutative_on_distinct_scores.1 [(0, exMatchA)]⟩

/-- C8 counterexample: two variants returning the same chunk id with *equal*
scores.  Merging in one order records winning variant 0, in the other
variant 1, so the merge is not commutative as claimed (the recorded winning
query variant differs). -/
theorem merge_not_commutative_counterexample :
    sortByScoreDesc (mergeMatches ([(0, exMatchA)] ++ [(1, exMatchA)])) ≠
      sortByScoreDesc (mergeMatches ([(1, exMatchA)] ++ [(0, exMatchA)])) := by
  decide

/-! ## Query-expansion parser: C7 -/

theorem parseLine_queries_length (acc : ParseAcc) (l : String) :
    (parseLine acc l).queries.length =
      acc.queries.length + (if emitsVariantLine l = true then 1 else 0) := by
  rw [parseLine, emitsVariantLine]
  dsimp only
  by_cases h1 : (pyStrip l).data.isEmpty
  · simp [h1]
  · by_cases h2 : isDimensionLine (pyStrip l)
    · simp [h1, h2]
    · by_cases h3 : isReasoningLine (pyStrip l)
      · simp [h1, h2, h3]
      · by_cases h4 : isQueryLine (pyStrip l)
        · by_cases h5 : (stripQueryValue (pyStrip l)).data.isEmpty
          · simp [h1, h2, h3, h4, h5]
          · simp [h1, h2, h3, h4, h5]
        · simp [h1, h2, h3, h4]

theorem foldl_parseLine_queries_length :
    ∀ (ls : List String) (acc : ParseAcc),
      (ls.foldl parseLine acc).queries.length =
        acc.queries.length + ls.countP emitsVariantLine := by
  intro ls
  induction ls with
  | nil => intro acc; simp
  | cons l ls ih =>
    intro acc
    show ((ls.foldl parseLine (parseLine acc l)).queries.length) = _
    rw [ih (parseLine acc l), parseLine_queries_length, List.countP_cons]
    by_cases h : emitsVariantLine l = true <;> simp [h] <;> omega

/-- C7 (amended): the parser emits a variant exactly for each response line
that reaches the QUERY branch with non-empty query text — whether or not a
DIMENSION or REASONING line was seen for that item (missing fields are
recorded as `None`); triples missing their QUERY line are silently dropped
(never raising, the parser being a total function), Scenario C (2 well-formed
triples plus 1 truncated triple missing its QUERY line) yields exactly 2
variants, and zero parsed variants is a valid outcome. -/
theorem expand_query_lenient_amended :
    (∀ response query, (expand_query response query).2.1.length =
      (splitNewlineAux (pyStrip response).data []).countP emitsVariantLine) ∧
    (expand_query scenarioCResponse "orig").2.2 =
      [⟨some "temporal", some "r1", "q1"⟩, ⟨some "causal", some "r2", "q2"⟩] ∧
    (expand_query scenarioCResponse "orig").2.1.length = 2 ∧
    (expand_query "plain text with no markers" "orig").2.1 = [] := by
  refine ⟨?_, by decide, by decide, by decide⟩
  intro response query
  rw [expand_query]
  dsimp only
  rw [foldl_parseLine_queries_length]
  simp

/-- C7 counterexample: a response consisting of a single QUERY line, with no
DIMENSION or REASONING line ever seen, still yields one variant (its
dimension and reasoning are `None`) — refuting "emits a variant only once all
three fields for that item have been seen". -/
theorem expand_query_counterexample :
    (expand_query "QUERY: alpha" "orig").2.1 = ["alpha"] ∧
    (expand_query "QUERY: alpha" "orig").2.2 = [⟨none, none, "alpha"⟩] := by
  decide

/-! ## Answer synthesis: C9 -/

theorem startsBracket_append {s : String} (b : String) (h : ∃ t, s.data = '[' :: t) :
    ∃ t, (s ++ b).data = '[' :: t := by
  obtain ⟨t, ht⟩ := h
  exact ⟨t ++ b.data, by rw [String.data_append, ht]; rfl⟩

theorem formatChunkPart_startsBracket (i : Nat) (c : RetrievedChunk) :
    ∃ t, (formatChunkPart i c).data = '[' :: t := by
  rw [formatChunkPart]
  split_ifs <;>
    (repeat apply startsBracket_append) <;>
    exact ⟨"Source ".data, rfl⟩

theorem joinParts_startsBracket (x : String) (xs : List String)
    (h : ∃ t, x.data = '[' :: t) : ∃ t, (joinParts (x :: xs)).data = '[' :: t := by
  cases xs with
  | nil => simpa [joinParts] using h
  | cons y ys =>
    show ∃ t, (x ++ "\n---\n" ++ joinParts (y :: ys)).data = '[' :: t
    exact startsBracket_append _ (startsBracket_append _ h)

theorem synthesize_context_ne_sentinel {chunks : List RetrievedChunk}
    (h : chunks ≠ []) :
    synthesize_context chunks ≠ "No relevant context found." := by
  cases chunks with
  | nil => exact absurd rfl h
  | cons c cs =>
    rw [synthesize_context, if_neg (by simp)]
    intro heq
    have hstart : ∃ t, (joinParts
        ((c :: cs).enum.map fun p => formatChunkPart (p.1 + 1) p.2)).data = '[' :: t := by
      rw [List.enum_cons, List.map_cons]
      exact joinParts_startsBracket _ _ (formatChunkPart_startsBracket _ _)
    obtain ⟨t, ht⟩ := hstart
    rw [heq] at ht
    simp at ht

/-- C9: with an empty retrieved-chunk list the synthesizer makes zero
generation calls and returns the fixed no-relevant-context strings; with a
non-empty list it formats at most `MAX_CHUNKS_FOR_ANSWER` chunks (the prefix
`take MAX_CHUNKS_FOR_ANSWER`) into the context passed to the single
generation call. -/
theorem answer_generation_empty_and_cap :
    (∀ (llm : String → String → String) (state : RetrieverState),
      state.retrieved_chunks.getD [] = [] →
      (generate_answer llm state).2 = 0 ∧
      (generate_answer llm state).1.synthesized_context =
        some "No relevant context found." ∧
      (generate_answer llm state).1.answer =
        some "I couldn't find relevant logic chains to answer this question.") ∧
    ∀ (llm : String → String → String) (state : RetrieverState),
      state.retrieved_chunks.getD [] ≠ [] →
      ((state.retrieved_chunks.getD []).take MAX_CHUNKS_FOR_ANSWER).length ≤
        MAX_CHUNKS_FOR_ANSWER ∧
      (generate_answer llm state).1.synthesized_context =
        some (synthesize_context
          ((state.retrieved_chunks.getD []).take MAX_CHUNKS_FOR_ANSWER)) ∧
      (generate_answer llm state).2 = 1 ∧
      (generate_answer llm state).1.answer = some (llm state.query
        (synthesize_context
          ((state.retrieved_chunks.getD []).take MAX_CHUNKS_FOR_ANSWER))) := by
  constructor
  · intro llm state h
    refine ⟨?_, ?_, ?_⟩ <;>
      simp [generate_answer, generate_logic_chains, synthesize_context, h]
  · intro llm state h
    have htake : (state.retrieved_chunks.getD []).take MAX_CHUNKS_FOR_ANSWER ≠ [] := by
      intro hnil
      rcases List.take_eq_nil_iff.mp hnil with h15 | hl
      · exact absurd h15 (by decide)
      · exact h hl
    have hne := synthesize_context_ne_sentinel htake
    refine ⟨List.length_take_le _ _, ?_, ?_, ?_⟩ <;>
      simp [generate_answer, generate_logic_chains, hne]

theorem answer_generation_empty_and_cap_witness :
    (emptyChunksState.retrieved_chunks.getD [] = [] ∧
      ((generate_answer (fun _ _ => "out") emptyChunksState).2 = 0 ∧
        (generate_answer (fun _ _ => "out") emptyChunksState).1.synthesized_context =
          some "No relevant context found." ∧
        (generate_answer (fun _ _ => "out") emptyChunksState).1.answer =
          some "I couldn't find relevant logic chains to answer this question.")) ∧
    (oneChunkState.retrieved_chunks.getD [] ≠ [] ∧
      (((oneChunkState.retrieved_chunks.getD []).take MAX_CHUNKS_FOR_ANSWER).length ≤
          MAX_CHUNKS_FOR_ANSWER ∧
        (generate_answer (fun _ _ => "out") oneChunkState).1.synthesized_context =
          some (synthesize_context
            ((oneChunkState.retrieved_chunks.getD []).take MAX_CHUNKS_FOR_ANSWER)) ∧
        (generate_answer (fun _ _ => "out") oneChunkState).2 = 1 ∧
        (generate_answer (fun _ _ => "out") oneChunkState).1.answer =
          some ((fun _ _ => "out") oneChunkState.query
            (synthesize_context
              ((oneChunkState.retrieved_chunks.getD []).take MAX_CHUNKS_FOR_ANSWER))))) :=
  ⟨⟨rfl, answer_generation_empty_and_cap.1 (fun _ _ => "out") emptyChunksState rfl⟩,
    ⟨by decide,
      answer_generation_empty_and_cap.2 (fun _ _ => "out") oneChunkState (by decide)⟩⟩

/-! ## Concurrency bound: C6 -/

theorem runningCount_set (p : TaskPhase) :
    ∀ (ps : List TaskPhase) (i : Nat) (old : TaskPhase), ps[i]? = some old →
      runningCount (ps.set i p) + (if isRunningPhase old then 1 else 0) =
        runningCount ps + (if isRunningPhase p then 1 else 0) := by
  intro ps
  induction ps with
  | nil =>
    intro i old h
    simp at h
  | cons a ps ih =>
    intro i old h
    cases i with
    | zero =>
      simp only [List.getElem?_cons_zero, Option.some.injEq] at h
      subst h
      simp only [List.set_cons_zero, runningCount, List.countP_cons]
      omega
    | succ n =>
      simp only [List.getElem?_cons_succ] at h
      have hih := ih n old h
      simp only [List.set_cons_succ, runningCount, List.countP_cons] at hih ⊢
      omega

theorem dispatch_concurrency_invariant (C : Nat) (init s : List TaskPhase)
    (hreach : Relation.ReflTransGen (DispatchStep C) init s)
    (hinit : runningCount init ≤ C) : runningCount s ≤ C := by
  induction hreach with
  | refl => exact hinit
  | tail hsteps hstep ih =>
    cases hstep with
    | acquire i body hget hcnt =>
      have h := runningCount_set (TaskPhase.running body) _ i _ hget
      simp [isRunningPhase] at h
      omega
    | work i a rest hget =>
      have h := runningCount_set (TaskPhase.running rest) _ i _ hget
      simp [isRunningPhase] at h
      omega
    | release i hget =>
      have h := runningCount_set TaskPhase.finished _ i _ hget
      simp [isRunningPhase] at h
      omega

/-- C6: in every state the dispatcher can reach from an all-waiting start,
the number of tasks simultaneously holding a semaphore slot — which includes
tasks sleeping in exponential backoff between retries, since the whole body
of `process_single_with_retry` runs inside `async with semaphore:` — never
exceeds the concurrency limit `C`. -/
theorem concurrency_never_exceeds_limit (C maxRetries : Nat) (specs : List TaskSpec)
    (s : List TaskPhase)
    (h : Relation.ReflTransGen (DispatchStep C) (initPhases specs maxRetries) s) :
    runningCount s ≤ C := by
  apply dispatch_concurrency_invariant C _ s h
  have hz : runningCount (initPhases specs maxRetries) = 0 := by
    rw [runningCount, initPhases, List.countP_map]
    exact List.countP_eq_zero.mpr fun a _ => by simp [Function.comp, isRunningPhase]
  omega

theorem concurrency_never_exceeds_limit_witness :
    runningCount ((initPhases [exSpecOk, alwaysFailSpec] 3).set 0
      (TaskPhase.running (taskBody exSpecOk 3))) ≤ 2 :=
  concurrency_never_exceeds_limit 2 3 [exSpecOk, alwaysFailSpec] _
    (Relation.ReflTransGen.single
      (DispatchStep.acquire _ 0 (taskBody exSpecOk 3) rfl (by decide)))

end Spec2Proof
